import Mathlib

/- Shallow embedding of the connect-db tool (src/main.rs).

   Rust strings are modelled as `List Char`.  The external effects are
   reified: `std::fs::read_to_string` and the two `serde_json::from_str`
   calls become oracle functions passed as parameters, and the launcher's
   side effects (stdout, environment write, process-image replacement)
   become an explicit event trace.  Everything else is translated
   directly from the source. -/

/-- Rust struct `DatabaseData`: the nested record holding the URL template. -/
structure DatabaseData where
  db_url : List Char
  deriving DecidableEq

/-- Rust struct `DatabaseConfig`. -/
structure DatabaseConfig where
  data : DatabaseData
  deriving DecidableEq

/-- Rust struct `DatabaseCredentials`. -/
structure DatabaseCredentials where
  username : List Char
  password : List Char
  deriving DecidableEq

/-- Rust struct `ConnectionParams`. -/
structure ConnectionParams where
  host : List Char
  port : List Char
  username : List Char
  password : List Char
  database : List Char
  deriving DecidableEq

/-- The distinct failure reasons of `parse_connection_url`; each constructor
    corresponds to one distinct `anyhow` message in the source:
    scheme-strip failure ("Invalid PostgreSQL URL format: <url>"),
    "Invalid URL format: missing '@' separator",
    "Invalid auth format: expected 'username:password'",
    "Invalid host format: expected 'host:port/database'", and
    "Invalid host format: expected 'host:port'". -/
inductive UrlError where
  | invalidUrlFormat
  | missingAtSeparator
  | invalidAuthFormat
  | invalidHostFormat
  | invalidHostPortFormat
  deriving DecidableEq

/-- The program-level error taxonomy: read/parse failures carry the offending
    path (the source attaches the path via `with_context`), URL failures carry
    the sub-reason, and a failed `exec` is terminal. -/
inductive AppError where
  | configRead (path : List Char)
  | configParse (path : List Char)
  | urlFormat (e : UrlError)
  | execFail
  deriving DecidableEq

/-- Rust `str::strip_prefix`: remove `pre` from the front of `s` if present. -/
def stripPre : List Char → List Char → Option (List Char)
  | [], s => some s
  | _ :: _, [] => none
  | p :: ps, c :: cs => if p = c then stripPre ps cs else none

/-- Rust `str::split(sep)` collected into a vector: always returns at least
    one (possibly empty) segment; a separator at either end or doubled
    produces empty segments, exactly as in Rust. -/
def splitChar (sep : Char) : List Char → List (List Char)
  | [] => [[]]
  | c :: rest =>
    match splitChar sep rest with
    | [] => [[]]
    | t :: ts => if c = sep then [] :: t :: ts else (c :: t) :: ts

/-- Worker for Rust `str::replace`: scans left to right; `skip` counts
    characters of a just-matched token still to be dropped (the replacement
    text is emitted up front and never rescanned, matching Rust's
    non-overlapping left-to-right `replace`). -/
def replaceAllAux (tok sub : List Char) : Nat → List Char → List Char
  | _ + 1, [] => []
  | n + 1, _ :: rest => replaceAllAux tok sub n rest
  | 0, [] => []
  | 0, c :: rest =>
    if tok ≠ [] ∧ tok.isPrefixOf (c :: rest)
    then sub ++ replaceAllAux tok sub (tok.length - 1) rest
    else c :: replaceAllAux tok sub 0 rest

/-- Rust `str::replace(tok, sub)`: replace every literal occurrence of `tok`
    by `sub`, leftmost first, non-overlapping, without rescanning `sub`.
    (Rust's behaviour for an empty pattern is irrelevant here: the program
    only ever replaces the two nonempty placeholder tokens.) -/
def replaceAll (tok sub s : List Char) : List Char :=
  replaceAllAux tok sub 0 s

/-- The literal placeholder token for the username (braces escaped). -/
def userTok : List Char := "\x7b\x7busername\x7d\x7d".toList

/-- The literal placeholder token for the password (braces escaped). -/
def pwTok : List Char := "\x7b\x7bpassword\x7d\x7d".toList

/-- The placeholder substitution performed inline in `main`:
    `.replace("\x7b\x7busername\x7d\x7d", ...)` followed by
    `.replace("\x7b\x7bpassword\x7d\x7d", ...)`. -/
def resolve_db_url (db_url : List Char) (creds : DatabaseCredentials) : List Char :=
  replaceAll pwTok creds.password (replaceAll userTok creds.username db_url)

/-- The scheme stripping in `parse_connection_url`:
    `strip_prefix("postgresql://").or_else(strip_prefix("postgres://"))`. -/
def stripSchemes (db_url : List Char) : Option (List Char) :=
  match stripPre "postgresql://".toList db_url with
  | some url => some url
  | none => stripPre "postgres://".toList db_url

/-- Rust `parse_connection_url`: strip the scheme, then four exact-arity
    splits (on a match of anything but exactly two segments the source
    returns the corresponding error after its `len() != 2` check, which the
    wildcard arms reproduce). -/
def parse_connection_url (db_url : List Char) : Except UrlError ConnectionParams :=
  match stripSchemes db_url with
  | none => .error .invalidUrlFormat
  | some url =>
    match splitChar '@' url with
    | [auth_part, host_part] =>
      match splitChar ':' auth_part with
      | [username, password] =>
        match splitChar '/' host_part with
        | [host_port, database] =>
          match splitChar ':' host_port with
          | [host, port] =>
            .ok { host := host, port := port, username := username,
                  password := password, database := database }
          | _ => .error .invalidHostPortFormat
        | _ => .error .invalidHostFormat
      | _ => .error .invalidAuthFormat
    | _ => .error .missingAtSeparator

/-- Path `.vault/secrets/<name>.db.json`. -/
def configPath (database_name : List Char) : List Char :=
  ".vault/secrets/".toList ++ database_name ++ ".db.json".toList

/-- Path `.vault/secrets/<name>.db-role.json`. -/
def credsPath (database_name : List Char) : List Char :=
  ".vault/secrets/".toList ++ database_name ++ ".db-role.json".toList

/-- Rust `load_database_config`, with the filesystem and the two
    `serde_json::from_str` calls as oracles (`none` models an
    `Err` from the library call): read the config file, read the
    credentials file, parse the config, parse the credentials — in that
    order, failing fast with an error naming the offending path. -/
def load_database_config
    (fs : List Char → Option (List Char))
    (parseCfg : List Char → Option DatabaseConfig)
    (parseCreds : List Char → Option DatabaseCredentials)
    (database_name : List Char) :
    Except AppError (DatabaseConfig × DatabaseCredentials) :=
  match fs (configPath database_name) with
  | none => .error (.configRead (configPath database_name))
  | some config_content =>
    match fs (credsPath database_name) with
    | none => .error (.configRead (credsPath database_name))
    | some creds_content =>
      match parseCfg config_content with
      | none => .error (.configParse (configPath database_name))
      | some config =>
        match parseCreds creds_content with
        | none => .error (.configParse (credsPath database_name))
        | some credentials => .ok (config, credentials)

/-- Observable external effects of a run, in order. -/
inductive Event where
  | fsRead (path : List Char) (result : Option (List Char))
  | stdout (line : List Char)
  | setEnv (key value : List Char)
  | exec (program : List Char) (args : List (List Char))
  deriving DecidableEq

/-- `format!("postgresql://\x7b\x7d:\x7b\x7d@\x7b\x7d:\x7b\x7d/\x7b\x7d", ...)`
    from `connect_with_psql`. -/
def conn_string (params : ConnectionParams) : List Char :=
  "postgresql://".toList ++ params.username ++ ':' :: params.password ++
    '@' :: params.host ++ ':' :: params.port ++ '/' :: params.database

/-- First `println!` line of `connect_with_psql`. -/
def connStringLine (params : ConnectionParams) : List Char :=
  "Connection string: ".toList ++ conn_string params

/-- Second `println!` line of `connect_with_psql`
    ("Connecting to database '<db>' at <host>:<port>"). -/
def connectingLine (params : ConnectionParams) : List Char :=
  "Connecting to database \x27".toList ++ params.database ++
    "\x27 at ".toList ++ params.host ++ ':' :: params.port

/-- The argument vector built by the `cmd.arg(..)` chain in
    `connect_with_psql`. -/
def psql_args (params : ConnectionParams) : List (List Char) :=
  [] ++ ["-h".toList] ++ [params.host] ++ ["-p".toList] ++ [params.port] ++
    ["-U".toList] ++ [params.username] ++ ["-d".toList] ++ [params.database]

/-- The effects of `connect_with_psql`, in program order: the two prints,
    the `PGPASSWORD` environment write, and the attempted process-image
    replacement. -/
def connect_with_psql (params : ConnectionParams) : List Event :=
  [.stdout (connStringLine params),
   .stdout (connectingLine params),
   .setEnv "PGPASSWORD".toList params.password,
   .exec "psql".toList (psql_args params)]

/-- Rust `main`, reified: the event trace of a run and its outcome
    (`none` = control was handed to the client or the program returned
    `Ok`; `some e` = it exits nonzero reporting `e`).  `execOk` is the
    oracle for whether the OS-level `exec` succeeds. -/
def runMain
    (fs : List Char → Option (List Char))
    (parseCfg : List Char → Option DatabaseConfig)
    (parseCreds : List Char → Option DatabaseCredentials)
    (execOk : Bool)
    (database_name : List Char) : List Event × Option AppError :=
  match fs (configPath database_name) with
  | none => ([.fsRead (configPath database_name) none],
             some (.configRead (configPath database_name)))
  | some config_content =>
    match fs (credsPath database_name) with
    | none => ([.fsRead (configPath database_name) (some config_content),
                .fsRead (credsPath database_name) none],
               some (.configRead (credsPath database_name)))
    | some creds_content =>
      let reads : List Event :=
        [.fsRead (configPath database_name) (some config_content),
         .fsRead (credsPath database_name) (some creds_content)]
      match parseCfg config_content with
      | none => (reads, some (.configParse (configPath database_name)))
      | some config =>
        match parseCreds creds_content with
        | none => (reads, some (.configParse (credsPath database_name)))
        | some credentials =>
          match parse_connection_url
              (resolve_db_url config.data.db_url credentials) with
          | .error e => (reads, some (.urlFormat e))
          | .ok params =>
            (reads ++ connect_with_psql params,
             if execOk then none else some .execFail)

/-! ### Basic lemmas about the embedded string operations -/

theorem stripPre_append (a r : List Char) : stripPre a (a ++ r) = some r := by
  induction a with
  | nil => rfl
  | cons c cs ih => simp [stripPre, ih]

theorem stripPre_eq_none {p s : List Char} (h : ¬ p <+: s) : stripPre p s = none := by
  induction p generalizing s with
  | nil => exact absurd (List.nil_prefix) h
  | cons c cs ih =>
    cases s with
    | nil => rfl
    | cons d ds =>
      by_cases hcd : c = d
      · subst hcd
        have : ¬ cs <+: ds := fun hp => h (List.cons_prefix_cons.mpr ⟨rfl, hp⟩)
        simp [stripPre, ih this]
      · simp [stripPre, hcd]

theorem splitChar_ne_nil (sep : Char) (s : List Char) : splitChar sep s ≠ [] := by
  induction s with
  | nil => simp [splitChar]
  | cons c rest ih =>
    simp only [splitChar]
    rcases h : splitChar sep rest with _ | ⟨t, ts⟩
    · simp
    · by_cases hc : c = sep <;> simp [hc]

theorem splitChar_no_sep {sep : Char} {a : List Char} (h : sep ∉ a) :
    splitChar sep a = [a] := by
  induction a with
  | nil => rfl
  | cons c rest ih =>
    have hc : c ≠ sep := fun hc => h (hc ▸ List.mem_cons_self c rest)
    have hrest : sep ∉ rest := fun hm => h (List.mem_cons_of_mem c hm)
    simp [splitChar, ih hrest, hc]

theorem splitChar_append {sep : Char} {a : List Char} (r : List Char) (h : sep ∉ a) :
    splitChar sep (a ++ sep :: r) = a :: splitChar sep r := by
  induction a with
  | nil =>
    simp only [List.nil_append, splitChar]
    rcases hr : splitChar sep r with _ | ⟨t, ts⟩
    · exact absurd hr (splitChar_ne_nil sep r)
    · simp
  | cons c rest ih =>
    have hc : c ≠ sep := fun hc => h (hc ▸ List.mem_cons_self c rest)
    have hrest : sep ∉ rest := fun hm => h (List.mem_cons_of_mem c hm)
    simp only [List.cons_append, splitChar, List.append_eq, ih hrest, hc, if_false]

/-! ### Lemmas about `replaceAll` -/

theorem replaceAllAux_skip (tok sub : List Char) :
    ∀ (a r : List Char), replaceAllAux tok sub a.length (a ++ r) = replaceAllAux tok sub 0 r := by
  intro a
  induction a with
  | nil => intro r; rfl
  | cons x a' ih =>
    intro r
    simp only [List.length_cons, List.cons_append, replaceAllAux]
    exact ih r

theorem replaceAll_cons_neg {tok : List Char} (sub : List Char) {c : Char} {s : List Char}
    (h : ¬ tok.isPrefixOf (c :: s)) :
    replaceAll tok sub (c :: s) = c :: replaceAll tok sub s := by
  simp only [replaceAll, replaceAllAux]
  rw [if_neg]
  intro hand
  exact h hand.2

theorem replaceAll_here {t : Char} {ts : List Char} (sub r : List Char) :
    replaceAll (t :: ts) sub ((t :: ts) ++ r) = sub ++ replaceAll (t :: ts) sub r := by
  have hpre : (t :: ts).isPrefixOf ((t :: ts) ++ r) :=
    List.isPrefixOf_iff_prefix.mpr (List.prefix_append _ _)
  simp only [replaceAll, List.cons_append, replaceAllAux]
  rw [if_pos ⟨List.cons_ne_nil t ts, hpre⟩]
  have : (t :: ts).length - 1 = ts.length := by simp
  rw [this]
  congr 1
  exact replaceAllAux_skip (t :: ts) sub ts r

theorem replaceAll_char {t c : Char} {ts : List Char} (sub : List Char) (r : List Char)
    (h : c ≠ t) :
    replaceAll (t :: ts) sub (c :: r) = c :: replaceAll (t :: ts) sub r := by
  apply replaceAll_cons_neg
  intro hpre
  have := List.isPrefixOf_iff_prefix.mp hpre
  exact h (List.cons_prefix_cons.mp this).1.symm

theorem not_infix_of_not_mem_head {t : Char} {ts s : List Char} (h : t ∉ s) :
    ¬ (t :: ts) <:+: s := fun hinf => h (hinf.subset (List.mem_cons_self t ts))

theorem replaceAll_no_occ {t : Char} {ts : List Char} (sub : List Char) {s : List Char}
    (hocc : ¬ (t :: ts) <:+: s) :
    replaceAll (t :: ts) sub s = s := by
  induction s with
  | nil => rfl
  | cons c s' ih =>
    have h1 : ¬ (t :: ts).isPrefixOf (c :: s') := fun hp =>
      hocc (List.isPrefixOf_iff_prefix.mp hp).isInfix
    have h2 : ¬ (t :: ts) <:+: s' := fun hi => hocc (List.infix_cons hi)
    rw [replaceAll_cons_neg sub h1, ih h2]

theorem replaceAll_append_cons {t : Char} {ts : List Char} (sub : List Char)
    {a : List Char} {c : Char} (r : List Char)
    (hc : c ∉ t :: ts) (hocc : ¬ (t :: ts) <:+: a) :
    replaceAll (t :: ts) sub (a ++ c :: r) = a ++ replaceAll (t :: ts) sub (c :: r) := by
  induction a with
  | nil => rfl
  | cons x a' ih =>
    have hnp : ¬ (t :: ts).isPrefixOf (x :: a' ++ c :: r) := by
      intro hp
      have hpre : (t :: ts) <+: (x :: a') ++ c :: r := by
        rw [List.cons_append]
        exact List.isPrefixOf_iff_prefix.mp hp
      have heq : (t :: ts) = ((x :: a') ++ c :: r).take (t :: ts).length :=
        List.prefix_iff_eq_take.mp hpre
      rw [List.take_append_eq_append_take] at heq
      by_cases hlen : (t :: ts).length ≤ (x :: a').length
      · have : (t :: ts).length - (x :: a').length = 0 := Nat.sub_eq_zero_of_le hlen
        rw [this, List.take_zero, List.append_nil] at heq
        exact hocc (heq ▸ (List.take_prefix _ _).isInfix)
      · have hpos : 0 < (t :: ts).length - (x :: a').length := by omega
        have hcmem : c ∈ (t :: ts) := by
          rcases Nat.exists_eq_succ_of_ne_zero (Nat.pos_iff_ne_zero.mp hpos) with ⟨m, hm⟩
          rw [hm, List.take_succ_cons] at heq
          rw [heq]
          exact List.mem_append_right _ (List.mem_cons_self c _)
        exact hc hcmem
    have h2 : ¬ (t :: ts) <:+: a' := fun hi => hocc (List.infix_cons hi)
    rw [List.cons_append, replaceAll_cons_neg sub (by simpa using hnp), ih h2,
      List.cons_append]

/-! ### A specification-level description of `str::replace`, and its
    equivalence with the implementation-level `replaceAll` -/

/-- Index of the leftmost occurrence of `tok` in `s`, if any. -/
def firstOcc (tok : List Char) : List Char → Option Nat
  | [] => if tok.isPrefixOf [] then some 0 else none
  | c :: rest =>
    if tok.isPrefixOf (c :: rest) then some 0
    else (firstOcc tok rest).map (· + 1)

theorem firstOcc_bound {tok s : List Char} {i : Nat} (h : firstOcc tok s = some i) :
    i + tok.length ≤ s.length := by
  induction s generalizing i with
  | nil =>
    simp only [firstOcc] at h
    split at h
    · next hp =>
      cases h
      have := List.prefix_nil.mp (List.isPrefixOf_iff_prefix.mp hp)
      simp [this]
    · cases h
  | cons c rest ih =>
    simp only [firstOcc] at h
    split at h
    · next hp =>
      cases h
      simpa using (List.isPrefixOf_iff_prefix.mp hp).length_le
    · rcases Option.map_eq_some'.mp h with ⟨j, hj, rfl⟩
      have := ih hj
      simp only [List.length_cons]
      omega

/-- Modelled from the specification's words for the substitution step:
    "replace every literal occurrence of the token — substitution happens
    once per token type, left to right", i.e. replace the leftmost
    occurrence and resume scanning *after* the inserted replacement,
    never rescanning it. -/
def specReplace (tok sub : List Char) (s : List Char) : List Char :=
  match tok with
  | [] => s
  | t :: ts =>
    match hocc : firstOcc (t :: ts) s with
    | none => s
    | some i =>
      s.take i ++ sub ++ specReplace (t :: ts) sub (s.drop (i + (t :: ts).length))
termination_by s.length
decreasing_by
  have hb := firstOcc_bound hocc
  simp only [List.length_drop, List.length_cons] at *
  omega

theorem specReplace_nil_tok (sub s : List Char) : specReplace [] sub s = s := by
  rw [specReplace]

theorem specReplace_none {t : Char} {ts s : List Char} (sub : List Char)
    (h : firstOcc (t :: ts) s = none) : specReplace (t :: ts) sub s = s := by
  rw [specReplace, h]

theorem specReplace_some {t : Char} {ts s : List Char} {i : Nat} (sub : List Char)
    (h : firstOcc (t :: ts) s = some i) :
    specReplace (t :: ts) sub s =
      s.take i ++ sub ++ specReplace (t :: ts) sub (s.drop (i + (t :: ts).length)) := by
  rw [specReplace, h]

theorem replaceAll_nil_tok (sub s : List Char) : replaceAll [] sub s = s := by
  induction s with
  | nil => rfl
  | cons c rest ih =>
    show replaceAllAux [] sub 0 (c :: rest) = c :: rest
    simp only [replaceAllAux]
    rw [if_neg (by simp)]
    exact congrArg (c :: ·) ih

/-- The inline substitution chain of `main` agrees with the specification-level
    description of `str::replace` for every token. -/
theorem replaceAll_eq_specReplace (tok sub s : List Char) :
    replaceAll tok sub s = specReplace tok sub s := by
  rcases tok with _ | ⟨t, ts⟩
  · rw [specReplace_nil_tok, replaceAll_nil_tok]
  · suffices H : ∀ n (s : List Char), s.length = n →
        replaceAll (t :: ts) sub s = specReplace (t :: ts) sub s from H s.length s rfl
    intro n
    induction n using Nat.strong_induction_on with
    | _ n ih =>
      intro s hs
      cases s with
      | nil =>
        rw [specReplace_none sub (by simp [firstOcc, List.isPrefixOf])]
        rfl
      | cons c rest =>
        by_cases hp : (t :: ts).isPrefixOf (c :: rest)
        · have hocc : firstOcc (t :: ts) (c :: rest) = some 0 := by
            simp [firstOcc, hp]
          rw [specReplace_some sub hocc]
          obtain ⟨r, hr⟩ := List.isPrefixOf_iff_prefix.mp hp
          have hlen : r.length < n := by
            subst hs
            rw [← hr]
            simp only [List.cons_append, List.length_cons, List.length_append]
            omega
          calc replaceAll (t :: ts) sub (c :: rest)
              = replaceAll (t :: ts) sub ((t :: ts) ++ r) := by rw [hr]
            _ = sub ++ replaceAll (t :: ts) sub r := replaceAll_here sub r
            _ = sub ++ specReplace (t :: ts) sub r := by rw [ih r.length hlen r rfl]
            _ = (c :: rest).take 0 ++ sub ++
                  specReplace (t :: ts) sub ((c :: rest).drop (0 + (t :: ts).length)) := by
                rw [← hr]
                simp [List.drop_left]
        · have hshift : firstOcc (t :: ts) (c :: rest) =
              (firstOcc (t :: ts) rest).map (· + 1) := by
            simp [firstOcc, hp]
          have hrlen : rest.length < n := by subst hs; simp
          rw [replaceAll_cons_neg sub hp, ih rest.length hrlen rest rfl]
          rcases ho : firstOcc (t :: ts) rest with _ | i
          · rw [specReplace_none sub ho,
              specReplace_none sub (by rw [hshift, ho]; rfl)]
          · have hocc2 : firstOcc (t :: ts) (c :: rest) = some (i + 1) := by
              rw [hshift, ho]
              rfl
            have hdrop : (c :: rest).drop (i + 1 + (t :: ts).length) =
                rest.drop (i + (t :: ts).length) := by
              have h1 : i + 1 + (t :: ts).length = (i + (t :: ts).length) + 1 := by omega
              rw [h1, List.drop_succ_cons]
            calc c :: specReplace (t :: ts) sub rest
                = c :: (rest.take i ++ sub ++
                    specReplace (t :: ts) sub (rest.drop (i + (t :: ts).length))) := by
                  rw [specReplace_some sub ho]
              _ = (c :: rest).take (i + 1) ++ sub ++
                    specReplace (t :: ts) sub ((c :: rest).drop (i + 1 + (t :: ts).length)) := by
                  rw [List.take_succ_cons, hdrop]
                  simp
              _ = specReplace (t :: ts) sub (c :: rest) :=
                  (specReplace_some sub hocc2).symm

/-! ### Wrappers used to compute the substitution on a well-formed template -/

theorem replaceAll_tok_here {tk : List Char} (sub r : List Char) (htk : tk ≠ []) :
    replaceAll tk sub (tk ++ r) = sub ++ replaceAll tk sub r := by
  rcases tk with _ | ⟨t, ts⟩
  · exact absurd rfl htk
  · exact replaceAll_here sub r

theorem replaceAll_tok_char {tk sub : List Char} {c : Char} (r : List Char)
    (htk : tk ≠ []) (hc : c ∉ tk) :
    replaceAll tk sub (c :: r) = c :: replaceAll tk sub r := by
  rcases tk with _ | ⟨t, ts⟩
  · exact absurd rfl htk
  · exact replaceAll_char sub r (fun he => hc (he ▸ List.mem_cons_self t ts))

theorem replaceAll_tok_skip {tk sub a : List Char} {c : Char} (r : List Char)
    (htk : tk ≠ []) (hc : c ∉ tk) (hocc : ¬ tk <:+: a) :
    replaceAll tk sub (a ++ c :: r) = a ++ replaceAll tk sub (c :: r) := by
  rcases tk with _ | ⟨t, ts⟩
  · exact absurd rfl htk
  · exact replaceAll_append_cons sub r hc hocc

theorem replaceAll_tok_no_occ {tk sub s : List Char} (htk : tk ≠ [])
    (hocc : ¬ tk <:+: s) : replaceAll tk sub s = s := by
  rcases tk with _ | ⟨t, ts⟩
  · exact absurd rfl htk
  · exact replaceAll_no_occ sub hocc

theorem replaceAll_brace_skip {tk sub : List Char} {a : List Char} (r : List Char)
    (htk : ∃ ts, tk = '\x7b' :: ts) (ha : '\x7b' ∉ a) :
    replaceAll tk sub (a ++ r) = a ++ replaceAll tk sub r := by
  obtain ⟨ts, rfl⟩ := htk
  induction a with
  | nil => rfl
  | cons c a' ih =>
    have hc : c ≠ '\x7b' := fun hc => ha (hc ▸ List.mem_cons_self c a')
    have ha' : '\x7b' ∉ a' := fun hm => ha (List.mem_cons_of_mem c hm)
    rw [List.cons_append, replaceAll_char sub _ hc, ih ha', List.cons_append]

theorem not_infix_of_brace_free {tk s : List Char} (htk : ∃ ts, tk = '\x7b' :: ts)
    (hs : '\x7b' ∉ s) : ¬ tk <:+: s := by
  obtain ⟨ts, rfl⟩ := htk
  exact not_infix_of_not_mem_head hs

theorem not_mem_append_cons {x c : Char} {a b : List Char}
    (ha : x ∉ a) (hc : x ≠ c) (hb : x ∉ b) : x ∉ a ++ c :: b := by
  intro hmem
  rcases List.mem_append.mp hmem with hm | hm
  · exact ha hm
  · rcases List.mem_cons.mp hm with he | hm2
    · exact hc he
    · exact hb hm2

theorem userTok_head : ∃ ts, userTok = '\x7b' :: ts :=
  ⟨"\x7busername\x7d\x7d".toList, by decide⟩

theorem pwTok_head : ∃ ts, pwTok = '\x7b' :: ts :=
  ⟨"\x7bpassword\x7d\x7d".toList, by decide⟩

theorem userTok_ne : userTok ≠ [] := by decide

theorem pwTok_ne : pwTok ≠ [] := by decide

/-! ### Claim C1: the round-trip law -/

/-- C1 (amended): for a template `scheme://<userTok>:<pwTok>@host:port/database`
    with scheme `postgresql` or `postgres`, whose host, port and database parts
    contain no reserved character and no opening brace, and credentials whose
    username and password contain none of the characters at-sign, colon,
    slash — and, additionally, whose username does not contain the literal
    password placeholder token — substituting the credentials into the
    template and then parsing the resolved URL returns exactly the supplied
    host, port, username, password and database. -/
theorem C1_roundtrip_amended
    (scheme u p hst prt db : List Char)
    (hscheme : scheme = "postgresql://".toList ∨ scheme = "postgres://".toList)
    (hu1 : '@' ∉ u) (hu2 : ':' ∉ u) (hu3 : '/' ∉ u) (hu4 : ¬ pwTok <:+: u)
    (hp1 : '@' ∉ p) (hp2 : ':' ∉ p) (hp3 : '/' ∉ p)
    (hh1 : '@' ∉ hst) (hh2 : ':' ∉ hst) (hh3 : '/' ∉ hst) (hh4 : '\x7b' ∉ hst)
    (hq1 : '@' ∉ prt) (hq2 : ':' ∉ prt) (hq3 : '/' ∉ prt) (hq4 : '\x7b' ∉ prt)
    (hd1 : '@' ∉ db) (hd2 : '/' ∉ db) (hd3 : '\x7b' ∉ db) :
    parse_connection_url (resolve_db_url
        (scheme ++ userTok ++ ':' :: pwTok ++ '@' :: hst ++ ':' :: prt ++ '/' :: db)
        { username := u, password := p }) =
      .ok { host := hst, port := prt, username := u, password := p, database := db } := by
  have hschemeb : '\x7b' ∉ scheme := by
    rcases hscheme with rfl | rfl <;> decide
  have hRb : '\x7b' ∉ hst ++ (':' :: (prt ++ ('/' :: db))) :=
    not_mem_append_cons hh4 (by decide : ('\x7b' : Char) ≠ ':')
      (not_mem_append_cons hq4 (by decide : ('\x7b' : Char) ≠ '/') hd3)
  have pass1 : replaceAll userTok u
      (scheme ++ (userTok ++ (':' :: (pwTok ++ ('@' :: (hst ++ (':' :: (prt ++ ('/' :: db)))))))))
      = scheme ++ (u ++ (':' :: (pwTok ++ ('@' :: (hst ++ (':' :: (prt ++ ('/' :: db)))))))) := by
    rw [replaceAll_brace_skip _ userTok_head hschemeb,
      replaceAll_tok_here _ _ userTok_ne,
      replaceAll_tok_char _ userTok_ne (by decide : ':' ∉ userTok),
      replaceAll_tok_skip _ userTok_ne (by decide : '@' ∉ userTok)
        (by decide : ¬ userTok <:+: pwTok),
      replaceAll_tok_char _ userTok_ne (by decide : '@' ∉ userTok),
      replaceAll_tok_no_occ userTok_ne (not_infix_of_brace_free userTok_head hRb)]
  have pass2 : replaceAll pwTok p
      (scheme ++ (u ++ (':' :: (pwTok ++ ('@' :: (hst ++ (':' :: (prt ++ ('/' :: db)))))))))
      = scheme ++ (u ++ (':' :: (p ++ ('@' :: (hst ++ (':' :: (prt ++ ('/' :: db)))))))) := by
    rw [replaceAll_brace_skip _ pwTok_head hschemeb,
      replaceAll_tok_skip _ pwTok_ne (by decide : ':' ∉ pwTok) hu4,
      replaceAll_tok_char _ pwTok_ne (by decide : ':' ∉ pwTok),
      replaceAll_tok_here _ _ pwTok_ne,
      replaceAll_tok_char _ pwTok_ne (by decide : '@' ∉ pwTok),
      replaceAll_tok_no_occ pwTok_ne (not_infix_of_brace_free pwTok_head hRb)]
  have hres : resolve_db_url
      (scheme ++ (userTok ++ (':' :: (pwTok ++ ('@' :: (hst ++ (':' :: (prt ++ ('/' :: db)))))))))
      { username := u, password := p }
      = scheme ++ (u ++ (':' :: (p ++ ('@' :: (hst ++ (':' :: (prt ++ ('/' :: db)))))))) := by
    show replaceAll pwTok p (replaceAll userTok u _) = _
    rw [pass1, pass2]
  have hstrip : stripSchemes
      (scheme ++ (u ++ (':' :: (p ++ ('@' :: (hst ++ (':' :: (prt ++ ('/' :: db)))))))))
      = some (u ++ (':' :: (p ++ ('@' :: (hst ++ (':' :: (prt ++ ('/' :: db)))))))) := by
    rcases hscheme with rfl | rfl
    · unfold stripSchemes
      rw [stripPre_append]
    · unfold stripSchemes
      have hnone : stripPre "postgresql://".toList
          ("postgres://".toList ++ (u ++ (':' :: (p ++ ('@' :: (hst ++ (':' :: (prt ++ ('/' :: db)))))))))
          = none := rfl
      rw [hnone, stripPre_append]
  have hsplit1 : splitChar '@' (u ++ (':' :: (p ++ ('@' :: (hst ++ (':' :: (prt ++ ('/' :: db))))))))
      = [u ++ (':' :: p), hst ++ (':' :: (prt ++ ('/' :: db)))] := by
    have h1 : '@' ∉ u ++ (':' :: p) :=
      not_mem_append_cons hu1 (by decide : ('@' : Char) ≠ ':') hp1
    have h2 : '@' ∉ hst ++ (':' :: (prt ++ ('/' :: db))) :=
      not_mem_append_cons hh1 (by decide : ('@' : Char) ≠ ':')
        (not_mem_append_cons hq1 (by decide : ('@' : Char) ≠ '/') hd1)
    calc splitChar '@' (u ++ (':' :: (p ++ ('@' :: (hst ++ (':' :: (prt ++ ('/' :: db))))))))
        = splitChar '@' ((u ++ (':' :: p)) ++ ('@' :: (hst ++ (':' :: (prt ++ ('/' :: db)))))) := by
          simp only [List.append_assoc, List.cons_append]
      _ = (u ++ (':' :: p)) :: splitChar '@' (hst ++ (':' :: (prt ++ ('/' :: db)))) :=
          splitChar_append _ h1
      _ = [u ++ (':' :: p), hst ++ (':' :: (prt ++ ('/' :: db)))] := by
          rw [splitChar_no_sep h2]
  have hsplit2 : splitChar ':' (u ++ (':' :: p)) = [u, p] := by
    rw [splitChar_append p hu2, splitChar_no_sep hp2]
  have hsplit3 : splitChar '/' (hst ++ (':' :: (prt ++ ('/' :: db))))
      = [hst ++ (':' :: prt), db] := by
    have h1 : '/' ∉ hst ++ (':' :: prt) :=
      not_mem_append_cons hh3 (by decide : ('/' : Char) ≠ ':') hq3
    calc splitChar '/' (hst ++ (':' :: (prt ++ ('/' :: db))))
        = splitChar '/' ((hst ++ (':' :: prt)) ++ ('/' :: db)) := by
          simp only [List.append_assoc, List.cons_append]
      _ = (hst ++ (':' :: prt)) :: splitChar '/' db := splitChar_append _ h1
      _ = [hst ++ (':' :: prt), db] := by rw [splitChar_no_sep hd2]
  have hsplit4 : splitChar ':' (hst ++ (':' :: prt)) = [hst, prt] := by
    rw [splitChar_append prt hh2, splitChar_no_sep hq2]
  have hgoalarg : scheme ++ userTok ++ ':' :: pwTok ++ '@' :: hst ++ ':' :: prt ++ '/' :: db
      = scheme ++ (userTok ++ (':' :: (pwTok ++ ('@' :: (hst ++ (':' :: (prt ++ ('/' :: db)))))))) := by
    simp only [List.append_assoc, List.cons_append]
  rw [hgoalarg, hres]
  simp only [parse_connection_url, hstrip, hsplit1, hsplit2, hsplit3, hsplit4]

/-- C1 (counterexample to the claim as stated): the credentials record with
    username equal to the literal password placeholder token and password
    `pw` contains none of the characters at-sign, colon, slash, yet the
    round trip through a well-formed template returns username `pw`
    instead of the supplied username: the first substitution pass plants a
    second password token that the second pass rewrites. -/
theorem C1_roundtrip_counterexample :
    ('@' ∉ pwTok ∧ ':' ∉ pwTok ∧ '/' ∉ pwTok ∧
     '@' ∉ "pw".toList ∧ ':' ∉ "pw".toList ∧ '/' ∉ "pw".toList) ∧
    parse_connection_url (resolve_db_url
        ("postgresql://".toList ++ userTok ++ ':' :: pwTok ++
          '@' :: "h".toList ++ ':' :: "1".toList ++ '/' :: "d".toList)
        { username := pwTok, password := "pw".toList }) =
      .ok { host := "h".toList, port := "1".toList, username := "pw".toList,
            password := "pw".toList, database := "d".toList } ∧
    "pw".toList ≠ pwTok :=
  ⟨by decide, rfl, by decide⟩

/-- C1 witness: the amended round-trip law at the spec's own scenario
    (`svc` / `s3cr3t` / `db.internal:5432/app`). -/
theorem C1_roundtrip_amended_witness :
    parse_connection_url (resolve_db_url
        ("postgresql://".toList ++ userTok ++ ':' :: pwTok ++
          '@' :: "db.internal".toList ++ ':' :: "5432".toList ++ '/' :: "app".toList)
        { username := "svc".toList, password := "s3cr3t".toList }) =
      .ok { host := "db.internal".toList, port := "5432".toList,
            username := "svc".toList, password := "s3cr3t".toList,
            database := "app".toList } :=
  C1_roundtrip_amended "postgresql://".toList "svc".toList "s3cr3t".toList
    "db.internal".toList "5432".toList "app".toList (Or.inl rfl)
    (by decide) (by decide) (by decide) (by decide)
    (by decide) (by decide) (by decide)
    (by decide) (by decide) (by decide) (by decide)
    (by decide) (by decide) (by decide) (by decide)
    (by decide) (by decide) (by decide)

/-! ### Claims C2, C7, C8: the parsing grammar -/

/-- C2: once a valid scheme prefix has been stripped, parsing fails with the
    distinct sub-reason of the first violated exact-arity split — missing
    at-separator, invalid auth format, invalid host format, invalid
    host:port — and succeeds with the fields taken from the segments when
    all four splits yield exactly two segments. -/
theorem C2_split_grammar (s rest : List Char) (h : stripSchemes s = some rest) :
    ((splitChar '@' rest).length ≠ 2 →
      parse_connection_url s = .error .missingAtSeparator) ∧
    (∀ auth_part host_part, splitChar '@' rest = [auth_part, host_part] →
      ((splitChar ':' auth_part).length ≠ 2 →
        parse_connection_url s = .error .invalidAuthFormat) ∧
      (∀ username password, splitChar ':' auth_part = [username, password] →
        ((splitChar '/' host_part).length ≠ 2 →
          parse_connection_url s = .error .invalidHostFormat) ∧
        (∀ host_port database, splitChar '/' host_part = [host_port, database] →
          ((splitChar ':' host_port).length ≠ 2 →
            parse_connection_url s = .error .invalidHostPortFormat) ∧
          (∀ host port, splitChar ':' host_port = [host, port] →
            parse_connection_url s = .ok
              { host := host, port := port, username := username,
                password := password, database := database })))) := by
  constructor
  · intro hlen
    rcases h1 : splitChar '@' rest with _ | ⟨a, _ | ⟨b, _ | ⟨x, l⟩⟩⟩
    · simp [parse_connection_url, h, h1]
    · simp [parse_connection_url, h, h1]
    · rw [h1] at hlen; simp at hlen
    · simp [parse_connection_url, h, h1]
  · intro auth_part host_part h1
    constructor
    · intro hlen
      rcases h2 : splitChar ':' auth_part with _ | ⟨a, _ | ⟨b, _ | ⟨x, l⟩⟩⟩
      · simp [parse_connection_url, h, h1, h2]
      · simp [parse_connection_url, h, h1, h2]
      · rw [h2] at hlen; simp at hlen
      · simp [parse_connection_url, h, h1, h2]
    · intro username password h2
      constructor
      · intro hlen
        rcases h3 : splitChar '/' host_part with _ | ⟨a, _ | ⟨b, _ | ⟨x, l⟩⟩⟩
        · simp [parse_connection_url, h, h1, h2, h3]
        · simp [parse_connection_url, h, h1, h2, h3]
        · rw [h3] at hlen; simp at hlen
        · simp [parse_connection_url, h, h1, h2, h3]
      · intro host_port database h3
        constructor
        · intro hlen
          rcases h4 : splitChar ':' host_port with _ | ⟨a, _ | ⟨b, _ | ⟨x, l⟩⟩⟩
          · simp [parse_connection_url, h, h1, h2, h3, h4]
          · simp [parse_connection_url, h, h1, h2, h3, h4]
          · rw [h4] at hlen; simp at hlen
          · simp [parse_connection_url, h, h1, h2, h3, h4]
        · intro host port h4
          simp [parse_connection_url, h, h1, h2, h3, h4]

/-- C2 witness: the success leg and one failure leg, at concrete URLs. -/
theorem C2_split_grammar_witness :
    parse_connection_url "postgresql://u:p@h:1/d".toList =
      .ok { host := "h".toList, port := "1".toList, username := "u".toList,
            password := "p".toList, database := "d".toList } ∧
    parse_connection_url "postgresql://uph:1/d".toList =
      .error .missingAtSeparator := by
  constructor
  · exact ((((C2_split_grammar "postgresql://u:p@h:1/d".toList "u:p@h:1/d".toList
      rfl).2 "u:p".toList "h:1/d".toList rfl).2 "u".toList "p".toList rfl).2
      "h:1".toList "d".toList rfl).2 "h".toList "1".toList rfl
  · exact (C2_split_grammar "postgresql://uph:1/d".toList "uph:1/d".toList
      rfl).1 (by decide)

/-- C7: an input starting with neither valid scheme prefix is rejected at the
    scheme-strip step with the URL-format error. -/
theorem C7_prefix_rejection (s : List Char)
    (h1 : ¬ "postgresql://".toList <+: s) (h2 : ¬ "postgres://".toList <+: s) :
    parse_connection_url s = .error .invalidUrlFormat := by
  unfold parse_connection_url stripSchemes
  rw [stripPre_eq_none h1, stripPre_eq_none h2]

/-- C7 witness: a URL with an unsupported scheme. -/
theorem C7_prefix_rejection_witness :
    parse_connection_url "mysql://u:p@h:1/d".toList = .error .invalidUrlFormat :=
  C7_prefix_rejection "mysql://u:p@h:1/d".toList (by decide) (by decide)

/-- C8: parsing with the `postgres://` scheme and with the `postgresql://`
    scheme produce identical outcomes on every remainder. -/
theorem C8_scheme_equivalence (s : List Char) :
    parse_connection_url ("postgres://".toList ++ s) =
      parse_connection_url ("postgresql://".toList ++ s) := by
  have h1 : stripSchemes ("postgres://".toList ++ s) = some s := by
    have hnone : stripPre "postgresql://".toList ("postgres://".toList ++ s) = none := rfl
    unfold stripSchemes
    rw [hnone, stripPre_append]
  have h2 : stripSchemes ("postgresql://".toList ++ s) = some s := by
    unfold stripSchemes
    rw [stripPre_append]
  simp only [parse_connection_url, h1, h2]

/-! ### Claim C4: the substitution semantics -/

/-- C4: the resolved URL is the template with every literal occurrence of the
    username token replaced by the credential username, then every occurrence
    of the password token replaced by the credential password — leftmost
    first, one pass per token type, never rescanning inserted text (stated
    against the independent specification-level `specReplace`). -/
theorem C4_substitution_semantics (t : List Char) (creds : DatabaseCredentials) :
    resolve_db_url t creds =
      specReplace pwTok creds.password (specReplace userTok creds.username t) := by
  unfold resolve_db_url
  rw [replaceAll_eq_specReplace, replaceAll_eq_specReplace]

/-! ### Claims C5 and C9: the launcher -/

/-- C5: the launcher invokes `psql` with exactly the argument vector
    `-h host -p port -U username -d database`, that vector is independent of
    the password (the password is never a command-line argument), and
    `PGPASSWORD` is set to the password before the process-image
    replacement is attempted. -/
theorem C5_launcher_invocation (params : ConnectionParams) (pw : List Char) :
    psql_args params =
      ["-h".toList, params.host, "-p".toList, params.port,
       "-U".toList, params.username, "-d".toList, params.database] ∧
    psql_args { params with password := pw } = psql_args params ∧
    connect_with_psql params =
      [.stdout (connStringLine params), .stdout (connectingLine params),
       .setEnv "PGPASSWORD".toList params.password,
       .exec "psql".toList (psql_args params)] :=
  ⟨rfl, rfl, rfl⟩

/-- C9: every run that reaches the launcher emits, before the exec attempt
    and regardless of whether the exec succeeds, a stdout line holding the
    fully resolved connection string (plaintext password included, as the
    infix fact witnesses) followed by the "Connecting to database" line. -/
theorem C9_connection_string_printed
    (fs : List Char → Option (List Char))
    (parseCfg : List Char → Option DatabaseConfig)
    (parseCreds : List Char → Option DatabaseCredentials)
    (execOk : Bool) (name cc rc : List Char)
    (config : DatabaseConfig) (creds : DatabaseCredentials)
    (params : ConnectionParams)
    (h1 : fs (configPath name) = some cc) (h2 : fs (credsPath name) = some rc)
    (h3 : parseCfg cc = some config) (h4 : parseCreds rc = some creds)
    (h5 : parse_connection_url (resolve_db_url config.data.db_url creds) = .ok params) :
    (runMain fs parseCfg parseCreds execOk name).1 =
      [.fsRead (configPath name) (some cc), .fsRead (credsPath name) (some rc),
       .stdout (connStringLine params), .stdout (connectingLine params),
       .setEnv "PGPASSWORD".toList params.password,
       .exec "psql".toList (psql_args params)] ∧
    connStringLine params = "Connection string: ".toList ++ conn_string params ∧
    params.password <:+: connStringLine params := by
  refine ⟨?_, rfl, ?_⟩
  · simp [runMain, h1, h2, h3, h4, h5, connect_with_psql]
  · refine ⟨"Connection string: postgresql://".toList ++ params.username ++ [':'],
      '@' :: params.host ++ ':' :: params.port ++ '/' :: params.database, ?_⟩
    simp [connStringLine, conn_string, List.append_assoc]

/-- C9 witness: a concrete run with a failing exec still prints both lines. -/
theorem C9_connection_string_printed_witness :
    (runMain
      (fun path => if path = configPath "mydb".toList then some "cfg".toList
        else if path = credsPath "mydb".toList then some "role".toList else none)
      (fun _ => some { data := { db_url := "postgresql://u:p@h:1/d".toList } })
      (fun _ => some { username := "u".toList, password := "p".toList })
      false "mydb".toList).1 =
      [.fsRead (configPath "mydb".toList) (some "cfg".toList),
       .fsRead (credsPath "mydb".toList) (some "role".toList),
       .stdout (connStringLine
         { host := "h".toList, port := "1".toList, username := "u".toList,
           password := "p".toList, database := "d".toList }),
       .stdout (connectingLine
         { host := "h".toList, port := "1".toList, username := "u".toList,
           password := "p".toList, database := "d".toList }),
       .setEnv "PGPASSWORD".toList "p".toList,
       .exec "psql".toList (psql_args
         { host := "h".toList, port := "1".toList, username := "u".toList,
           password := "p".toList, database := "d".toList })] :=
  (C9_connection_string_printed _ _ _ false "mydb".toList "cfg".toList "role".toList
    { data := { db_url := "postgresql://u:p@h:1/d".toList } }
    { username := "u".toList, password := "p".toList }
    { host := "h".toList, port := "1".toList, username := "u".toList,
      password := "p".toList, database := "d".toList }
    rfl rfl rfl rfl rfl).1

/-! ### Claim C3: failure atomicity -/

/-- An event that is merely a file read. -/
def isReadEvent : Event → Bool
  | .fsRead _ _ => true
  | _ => false

/-- C3 (amended): every failure exits nonzero; on the config-read,
    config-parse and URL-format failure paths the trace holds nothing but
    file reads, while on the exec-failure path the program has already
    printed the two connection lines and set `PGPASSWORD` (the
    `connect_with_psql` events) after its reads. -/
theorem C3_failure_atomicity_amended
    (fs : List Char → Option (List Char))
    (parseCfg : List Char → Option DatabaseConfig)
    (parseCreds : List Char → Option DatabaseCredentials)
    (execOk : Bool) (name : List Char) :
    (∀ e, (runMain fs parseCfg parseCreds execOk name).2 = some e →
      e ≠ .execFail →
      ((runMain fs parseCfg parseCreds execOk name).1.all isReadEvent) = true) ∧
    ((runMain fs parseCfg parseCreds execOk name).2 = some .execFail →
      ∃ params reads, reads.all isReadEvent = true ∧
        (runMain fs parseCfg parseCreds execOk name).1 =
          reads ++ connect_with_psql params) := by
  rcases hc : fs (configPath name) with _ | cc
  · constructor
    · intro e he hne
      simp [runMain, hc, isReadEvent]
    · intro he
      simp [runMain, hc] at he
  · rcases hr : fs (credsPath name) with _ | rc
    · constructor
      · intro e he hne
        simp [runMain, hc, hr, isReadEvent]
      · intro he
        simp [runMain, hc, hr] at he
    · rcases hpc : parseCfg cc with _ | config
      · constructor
        · intro e he hne
          simp [runMain, hc, hr, hpc, isReadEvent]
        · intro he
          simp [runMain, hc, hr, hpc] at he
      · rcases hpr : parseCreds rc with _ | creds
        · constructor
          · intro e he hne
            simp [runMain, hc, hr, hpc, hpr, isReadEvent]
          · intro he
            simp [runMain, hc, hr, hpc, hpr] at he
        · rcases hurl : parse_connection_url (resolve_db_url config.data.db_url creds)
              with e0 | params
          · constructor
            · intro e he hne
              simp [runMain, hc, hr, hpc, hpr, hurl, isReadEvent]
            · intro he
              simp [runMain, hc, hr, hpc, hpr, hurl] at he
          · constructor
            · intro e he hne
              cases execOk
              · simp [runMain, hc, hr, hpc, hpr, hurl] at he
                exact absurd he.symm hne
              · simp [runMain, hc, hr, hpc, hpr, hurl] at he
            · intro he
              refine ⟨params,
                [.fsRead (configPath name) (some cc),
                 .fsRead (credsPath name) (some rc)], rfl, ?_⟩
              simp [runMain, hc, hr, hpc, hpr, hurl]

/-- C3 (counterexample to the claim as stated): a run in which both reads
    and all parses succeed but the exec fails exits nonzero, yet its trace
    is not made of file reads alone — the two stdout lines and the
    environment write already happened. -/
theorem C3_failure_atomicity_counterexample :
    (runMain
      (fun path => if path = configPath "mydb".toList then some "cfg".toList
        else if path = credsPath "mydb".toList then some "role".toList else none)
      (fun _ => some { data := { db_url := "postgresql://u:p@h:1/d".toList } })
      (fun _ => some { username := "u".toList, password := "p".toList })
      false "mydb".toList).2 = some .execFail ∧
    ((runMain
      (fun path => if path = configPath "mydb".toList then some "cfg".toList
        else if path = credsPath "mydb".toList then some "role".toList else none)
      (fun _ => some { data := { db_url := "postgresql://u:p@h:1/d".toList } })
      (fun _ => some { username := "u".toList, password := "p".toList })
      false "mydb".toList).1.all isReadEvent) = false :=
  ⟨rfl, rfl⟩

/-- C3 witness: on a read-failure path the trace holds only file reads. -/
theorem C3_failure_atomicity_amended_witness :
    ((runMain (fun _ => none) (fun _ => none) (fun _ => none) true
      "db".toList).1.all isReadEvent) = true :=
  (C3_failure_atomicity_amended (fun _ => none) (fun _ => none) (fun _ => none)
    true "db".toList).1 (.configRead (configPath "db".toList)) rfl (by decide)

/-! ### Claims C6 and C10: the secret loader -/

/-- C6: a read failure of either secret file yields a `configRead` error
    naming that path, and a parse failure of a file that was read yields a
    `configParse` error naming that path. -/
theorem C6_secret_loading_errors
    (fs : List Char → Option (List Char))
    (parseCfg : List Char → Option DatabaseConfig)
    (parseCreds : List Char → Option DatabaseCredentials)
    (name : List Char) :
    (fs (configPath name) = none →
      load_database_config fs parseCfg parseCreds name =
        .error (.configRead (configPath name))) ∧
    (∀ cc, fs (configPath name) = some cc → fs (credsPath name) = none →
      load_database_config fs parseCfg parseCreds name =
        .error (.configRead (credsPath name))) ∧
    (∀ cc rc, fs (configPath name) = some cc → fs (credsPath name) = some rc →
      parseCfg cc = none →
      load_database_config fs parseCfg parseCreds name =
        .error (.configParse (configPath name))) ∧
    (∀ cc rc config, fs (configPath name) = some cc →
      fs (credsPath name) = some rc → parseCfg cc = some config →
      parseCreds rc = none →
      load_database_config fs parseCfg parseCreds name =
        .error (.configParse (credsPath name))) := by
  refine ⟨?_, ?_, ?_, ?_⟩ <;> intros <;> simp [load_database_config, *]

/-- C6 witness: all four failure shapes at concrete oracles. -/
theorem C6_secret_loading_errors_witness :
    load_database_config (fun _ => none) (fun _ => none) (fun _ => none)
      "db".toList = .error (.configRead (configPath "db".toList)) ∧
    load_database_config
      (fun path => if path = configPath "db".toList then some "x".toList else none)
      (fun _ => none) (fun _ => none) "db".toList =
      .error (.configRead (credsPath "db".toList)) ∧
    load_database_config (fun _ => some "x".toList) (fun _ => none) (fun _ => none)
      "db".toList = .error (.configParse (configPath "db".toList)) ∧
    load_database_config (fun _ => some "x".toList)
      (fun _ => some { data := { db_url := "u".toList } }) (fun _ => none)
      "db".toList = .error (.configParse (credsPath "db".toList)) :=
  ⟨(C6_secret_loading_errors (fun _ => none) (fun _ => none) (fun _ => none)
      "db".toList).1 rfl,
   (C6_secret_loading_errors _ (fun _ => none) (fun _ => none) "db".toList).2.1
      "x".toList rfl rfl,
   (C6_secret_loading_errors (fun _ => some "x".toList) (fun _ => none)
      (fun _ => none) "db".toList).2.2.1 "x".toList "x".toList rfl rfl rfl,
   (C6_secret_loading_errors (fun _ => some "x".toList)
      (fun _ => some { data := { db_url := "u".toList } }) (fun _ => none)
      "db".toList).2.2.2 "x".toList "x".toList
      { data := { db_url := "u".toList } } rfl rfl rfl rfl⟩

/-- C10: both reads happen before either parse, so an unreadable
    credentials file is reported as a read error on the credentials path
    even when the config file was read but holds malformed content. -/
theorem C10_read_precedes_parse
    (fs : List Char → Option (List Char))
    (parseCfg : List Char → Option DatabaseConfig)
    (parseCreds : List Char → Option DatabaseCredentials)
    (name cc : List Char)
    (h1 : fs (configPath name) = some cc)
    (h2 : parseCfg cc = none)
    (h3 : fs (credsPath name) = none) :
    load_database_config fs parseCfg parseCreds name =
      .error (.configRead (credsPath name)) := by
  simp [load_database_config, h1, h3]

/-- C10 witness: malformed config content plus a missing credentials file
    reports the read error for the credentials path. -/
theorem C10_read_precedes_parse_witness :
    load_database_config
      (fun path => if path = configPath "db".toList then some "garbage".toList
        else none)
      (fun _ => none)
      (fun _ => some { username := "u".toList, password := "p".toList })
      "db".toList = .error (.configRead (credsPath "db".toList)) :=
  C10_read_precedes_parse _ _ _ "db".toList "garbage".toList rfl rfl rfl
